import Mathlib

/-!
# Verification of the RouterVault per-device backup engine

Shallow embedding of the change-detection and backup-execution core of
`app/services/backup.py` and `app/services/mikrotik.py`.

Modelling conventions:
* Instants are `Int` seconds since the Unix epoch (UTC).  `timedelta(days=d)`
  is `d * 86400` seconds, `timedelta(hours=h)` is `h * 3600` seconds.
* The local zone `Asia/Manila` is UTC+8 with no daylight saving, so local
  calendar date and local time-of-day are pure arithmetic on the instant.
* Persisted timestamp columns hold ISO strings in the source; a string that is
  absent, empty, or unparseable by `datetime.fromisoformat` behaves the same
  everywhere it is read (each reader falls back on parse failure exactly as it
  does on absence), so such columns are modelled as `Option Int`
  (`none` = absent-or-unparseable).
* `daily_baseline_time` is stored as an `"HH:MM"` string parsed with
  `strptime("%H:%M")`; the field is modelled as the parse result
  `Option (Int × Int)` (`none` = absent or unparseable, which the source
  treats identically: `is_baseline_due` returns `False` for both).
* Log rows fetched from the device are dictionaries
  `{logged_at, topics, message}`; `logged_at` is an ISO string when the device
  timestamp parsed and a raw (non-ISO) string otherwise, so it is modelled as
  `Option Int` (`none` = not parseable by `datetime.fromisoformat`).
-/

namespace RouterVault

/-- Asia/Manila is a fixed UTC+8 offset (no DST). -/
def manilaOffset : Int := 8 * 3600

/-- Local calendar day number of a UTC instant in Asia/Manila. -/
def manilaDate (t : Int) : Int := (t + manilaOffset).fdiv 86400

/-- Local time-of-day, in seconds since local midnight, in Asia/Manila. -/
def manilaSec (t : Int) : Int := (t + manilaOffset).emod 86400

/-- One fetched log row, as produced by `MikroTikClient.fetch_logs`:
`logged_at` is modelled as the `datetime.fromisoformat` parse of the stored
string (`none` when unparseable). -/
structure LogEntry where
  loggedAt : Option Int
  topics : String
  message : String
deriving Repr, DecidableEq

/-- The mutable per-device row of the `routers` table, restricted to the
fields read or written by the backup engine (`app/services/backup.py`). -/
structure RouterState where
  name : String
  lastLogCheckAt : Option Int
  lastBackupLogAt : Option Int
  lastHash : Option String
  lastBackupAt : Option Int
  lastSuccessAt : Option Int
  lastError : Option String
  lastConfigChangeAt : Option Int
  lastBackupLinks : Option String
  lastCheckAt : Option Int
  lastBaselineAt : Option Int
  updatedAt : Option Int
  forceBackupEveryDays : Option Int
  backupCheckIntervalHours : Option Int
  dailyBaselineTime : Option (Int × Int)
  retentionDays : Option Int
deriving Repr, DecidableEq

/-! ## Change Detector (`backup.py:detect_change`) -/

/-- `detect_change(logs, new_hash, old_hash)` from `backup.py` lines 93–101.
`old_hash` is `str | None` in the source and `if not old_hash` is taken for
both `None` and `""`, so it is modelled as `Option String` with an explicit
empty-string test. -/
def detect_change (logs : List LogEntry) (newHash : String) (oldHash : Option String) :
    Bool × String :=
  match oldHash with
  | none => (true, "Initial snapshot")
  | some h =>
    if h = "" then (true, "Initial snapshot")
    else if newHash ≠ h then (true, "Hash changed")
    else (false, "No changes detected")

/-! ## Due Calculator (`backup.py` lines 43–90) -/

/-- The per-device forced-backup cadence: `int(router.get("force_backup_every_days") or 7)`.
Python's `or` replaces both `None` and `0` by the default `7`. -/
def routerForceDays (r : RouterState) : Int :=
  match r.forceBackupEveryDays with
  | none => 7
  | some v => if v = 0 then 7 else v

/-- `should_force_backup(router, now)` from `backup.py` lines 80–90.  Returns
`True` when `last_success_at` is absent or unparseable, otherwise compares the
elapsed time against `timedelta(days=max(1, router_days))`. -/
def should_force_backup (r : RouterState) (now : Int) : Bool :=
  match r.lastSuccessAt with
  | none => true
  | some t => decide (now - t ≥ max 1 (routerForceDays r) * 86400)

/-- The check interval: `router.get("backup_check_interval_hours") or 6`. -/
def routerIntervalHours (r : RouterState) : Int :=
  match r.backupCheckIntervalHours with
  | none => 6
  | some v => if v = 0 then 6 else v

/-- `is_interval_due(router, now)` from `backup.py` lines 68–77. -/
def is_interval_due (r : RouterState) (now : Int) : Bool :=
  match r.lastCheckAt with
  | none => true
  | some t => decide (now - t ≥ routerIntervalHours r * 3600)

/-- `is_baseline_due(router, now)` from `backup.py` lines 43–65.  The source
converts `last_baseline_at` (naive = UTC) and `now` to Asia/Manila and
compares local calendar dates, then compares local time-of-day with the
configured `HH:MM`. -/
def is_baseline_due (r : RouterState) (now : Int) : Bool :=
  match r.dailyBaselineTime with
  | none => false
  | some (h, m) =>
    let lastBaselineDate : Option Int := r.lastBaselineAt.map manilaDate
    if lastBaselineDate = some (manilaDate now) then false
    else decide (manilaSec now ≥ h * 3600 + m * 60)

/-! ## Spec-side Due Calculator (for comparison with the source) -/

/-- Modelled from the spec: `forceDue(device, now, globalForceDays)` —
"Otherwise compute `days = max(1, min(globalForceDays, device.forceEveryDays))`
and return `now − lastSuccessAt ≥ days`" (§4.1).  This is the spec's wording;
the source's `should_force_backup` takes no global parameter. -/
def forceDue_spec (r : RouterState) (now globalForceDays : Int) : Bool :=
  match r.lastSuccessAt with
  | none => true
  | some t => decide (now - t ≥ max 1 (min globalForceDays (routerForceDays r)) * 86400)

/-! ## Claims C1, C2, C9 -/

/-- **C1**: `detect_change` returns `(true, "Initial snapshot")` whenever the
stored old hash is empty or absent, regardless of the new hash;
`(true, "Hash changed")` whenever the old hash is non-empty and the new hash
differs from it; and `(false, "No changes detected")` whenever the new hash
equals the non-empty old hash. -/
theorem detect_change_cases (logs : List LogEntry) (newHash : String)
    (oldHash : Option String) :
    ((oldHash = none ∨ oldHash = some "") →
      detect_change logs newHash oldHash = (true, "Initial snapshot")) ∧
    (∀ h, oldHash = some h → h ≠ "" → newHash ≠ h →
      detect_change logs newHash oldHash = (true, "Hash changed")) ∧
    (∀ h, oldHash = some h → h ≠ "" → newHash = h →
      detect_change logs newHash oldHash = (false, "No changes detected")) := by
  refine ⟨?_, ?_, ?_⟩
  · rintro (rfl | rfl) <;> simp [detect_change]
  · rintro h rfl hne hdiff
    simp [detect_change, hne, hdiff]
  · rintro h rfl hne heq
    simp [detect_change, hne, heq]

theorem detect_change_cases_witness :
    detect_change [] "a" (some "") = (true, "Initial snapshot") ∧
    detect_change [] "a" (some "b") = (true, "Hash changed") ∧
    detect_change [] "b" (some "b") = (false, "No changes detected") :=
  ⟨(detect_change_cases [] "a" (some "")).1 (Or.inr rfl),
   (detect_change_cases [] "a" (some "b")).2.1 "b" rfl (by decide) (by decide),
   (detect_change_cases [] "b" (some "b")).2.2 "b" rfl (by decide) rfl⟩

/-- **C9**: the changed/unchanged decision of `detect_change` depends solely on
the hash comparison; the fetched/classified log entries never influence it. -/
theorem detect_change_ignores_logs (l1 l2 : List LogEntry) (newHash : String)
    (oldHash : Option String) :
    detect_change l1 newHash oldHash = detect_change l2 newHash oldHash := rfl

/-- **C2, counterexample**: the claim says `should_force_backup` applies
`days = max(1, min(globalForceDays, device.forceEveryDays))`.  With a device
cadence of 7 days, a global cadence of 1 day and 2 elapsed days since the last
success, the spec formula yields `true` while the source returns `false` (the
source consults no global setting). -/
def c2Router : RouterState where
  name := "r1"
  lastLogCheckAt := none
  lastBackupLogAt := none
  lastHash := none
  lastBackupAt := none
  lastSuccessAt := some 0
  lastError := none
  lastConfigChangeAt := none
  lastBackupLinks := none
  lastCheckAt := none
  lastBaselineAt := none
  updatedAt := none
  forceBackupEveryDays := some 7
  backupCheckIntervalHours := none
  dailyBaselineTime := none
  retentionDays := none

theorem should_force_backup_ignores_global :
    should_force_backup c2Router (2 * 86400) = false ∧
    forceDue_spec c2Router (2 * 86400) 1 = true := by
  constructor <;> decide

/-- **C2, amended**: `should_force_backup` is `true` when `lastSuccessAt` is
absent (bootstrap — always force, regardless of configured cadence); otherwise
it returns `now − lastSuccessAt ≥ days` where
`days = max(1, device.forceEveryDays)` (with `forceEveryDays` defaulting to 7
when unset or 0).  No global policy value is consulted. -/
theorem should_force_backup_spec (r : RouterState) (now : Int) :
    (r.lastSuccessAt = none → should_force_backup r now = true) ∧
    (∀ t, r.lastSuccessAt = some t →
      (should_force_backup r now =
        decide (now - t ≥ max 1 (routerForceDays r) * 86400))) := by
  constructor
  · intro h; simp [should_force_backup, h]
  · intro t h; simp [should_force_backup, h]

theorem should_force_backup_spec_witness :
    should_force_backup { c2Router with lastSuccessAt := none } 5 = true ∧
    should_force_backup c2Router (2 * 86400) =
      decide ((2 * 86400 : Int) - 0 ≥ max 1 (routerForceDays c2Router) * 86400) :=
  ⟨(should_force_backup_spec { c2Router with lastSuccessAt := none } 5).1 rfl,
   (should_force_backup_spec c2Router (2 * 86400)).2 0 rfl⟩

/-! ## Retention sweep (`backup.py` lines 29–40 and 194–216) -/

/-- One directory entry of a device storage folder, as seen by
`folder.iterdir()`: name, regular-file flag, and `st_mtime` (seconds). -/
structure FileEntry where
  name : String
  isFile : Bool
  mtime : Int
deriving Repr, DecidableEq

/-- One row of the `backups` table, restricted to the columns the retention
sweep reads (`SELECT backup_link, rsc_link ... WHERE important = 1`). -/
structure BackupRow where
  backupLink : String
  rscLink : String
  important : Bool
deriving Repr, DecidableEq

/-- `PurePath(val).name` for the slash-separated link paths stored in
`backup_link` / `rsc_link` (which are built as `/download/{slug}/…/{file}` and
never end in a slash): the component after the last `/`. -/
def basename (s : String) : String :=
  String.mk (s.toList.foldl (fun acc c => if c = '/' then [] else acc.concat c) [])

/-- The protected-name collection of `backup.py` lines 197–213: the basenames
of the non-empty `backup_link` / `rsc_link` values of this device's
`important = 1` backup rows. -/
def protectedNamesOf (rows : List BackupRow) : List String :=
  (rows.filter (·.important)).flatMap
    (fun row => ([row.backupLink, row.rscLink].filter (fun v => v ≠ "")).map basename)

/-- Whether `delete_old_local_files` unlinks `e`: a regular file, name prefixed
`rv_`, not in the protected set, and `st_mtime ≤ cutoff`. -/
def sweepDeletes (cutoff : Int) (protectedSet : List String) (e : FileEntry) : Bool :=
  e.isFile && e.name.startsWith "rv_" && !(protectedSet.contains e.name) &&
    decide (e.mtime ≤ cutoff)

/-- `delete_old_local_files(folder, retention_days, protected)` from
`backup.py` lines 29–40, returning the surviving directory entries.
`cutoff = now − retention_days · 86400`. -/
def delete_old_local_files (now : Int) (files : List FileEntry) (retentionDays : Int)
    (protectedSet : List String) : List FileEntry :=
  files.filter (fun e => !sweepDeletes (now - retentionDays * 86400) protectedSet e)

/-- The retention step of `run_router_check` (lines 194–216): collect the
protected names from the device's important backup rows, then sweep a storage
folder. -/
def retention_sweep (now : Int) (rows : List BackupRow) (files : List FileEntry)
    (retentionDays : Int) : List FileEntry :=
  delete_old_local_files now files retentionDays (protectedNamesOf rows)

/-- Any non-empty link of an important row contributes its basename to the
protected set. -/
theorem basename_mem_protectedNamesOf {rows : List BackupRow} {row : BackupRow}
    (hrow : row ∈ rows) (himp : row.important = true) {link : String}
    (hlink : link = row.backupLink ∨ link = row.rscLink) (hne : link ≠ "") :
    basename link ∈ protectedNamesOf rows := by
  unfold protectedNamesOf
  rw [List.mem_flatMap]
  refine ⟨row, List.mem_filter.mpr ⟨hrow, by simp [himp]⟩, ?_⟩
  rw [List.mem_map]
  refine ⟨link, List.mem_filter.mpr ⟨?_, by simp [hne]⟩, rfl⟩
  rcases hlink with rfl | rfl <;> simp

/-- **C4**: a retention sweep run during an executor cycle never deletes a
file whose filename is referenced (as `backup_link` or `rsc_link`) by an
`important = true` backup row of the device, even when the file is older than
the retention cutoff; and a file that is deleted is unprotected and has
`st_mtime` at or before the cutoff `now − retentionDays · 86400`. -/
theorem retention_sweep_protects (now : Int) (rows : List BackupRow)
    (files : List FileEntry) (retentionDays : Int) :
    (∀ row ∈ rows, row.important = true →
      ∀ link, (link = row.backupLink ∨ link = row.rscLink) → link ≠ "" →
      ∀ f ∈ files, f.name = basename link →
        f ∈ retention_sweep now rows files retentionDays) ∧
    (∀ f ∈ files, f ∉ retention_sweep now rows files retentionDays →
      f.name ∉ protectedNamesOf rows ∧ f.mtime ≤ now - retentionDays * 86400) := by
  constructor
  · intro row hrow himp link hlink hne f hf hname
    have hmem : f.name ∈ protectedNamesOf rows := by
      rw [hname]; exact basename_mem_protectedNamesOf hrow himp hlink hne
    have hc : (protectedNamesOf rows).contains f.name = true :=
      List.elem_eq_true_of_mem hmem
    refine List.mem_filter.mpr ⟨hf, ?_⟩
    simp only [sweepDeletes]
    simp only [Bool.not_eq_true']
    simp
    intro _ _ hnotmem
    exact absurd hmem hnotmem
  · intro f hf hnot
    have hdel : sweepDeletes (now - retentionDays * 86400) (protectedNamesOf rows) f = true := by
      by_contra hcon
      rw [Bool.not_eq_true] at hcon
      exact hnot (List.mem_filter.mpr ⟨hf, by simp [hcon]⟩)
    simp only [sweepDeletes, Bool.and_eq_true, Bool.not_eq_true', decide_eq_true_eq] at hdel
    obtain ⟨⟨⟨_, _⟩, hprot⟩, hcut⟩ := hdel
    simp at hprot
    exact ⟨hprot, hcut⟩

/-- **C4 witness**: retention 1 day, an important row protecting
`rv_a_1.backup` aged far past the cutoff — the sweep keeps the protected file
and deletes an unprotected equally-old file. -/
theorem retention_sweep_protects_witness :
    (⟨"rv_a_1.backup", true, 0⟩ : FileEntry) ∈
      retention_sweep (30 * 86400)
        [⟨"/download/a/backups/rv_a_1.backup", "/download/a/rsc/rv_a_1.rsc", true⟩]
        [⟨"rv_a_1.backup", true, 0⟩, ⟨"rv_a_2.backup", true, 0⟩] 1 :=
  (retention_sweep_protects (30 * 86400)
      [⟨"/download/a/backups/rv_a_1.backup", "/download/a/rsc/rv_a_1.rsc", true⟩]
      [⟨"rv_a_1.backup", true, 0⟩, ⟨"rv_a_2.backup", true, 0⟩] 1).1
    ⟨"/download/a/backups/rv_a_1.backup", "/download/a/rsc/rv_a_1.rsc", true⟩
    (by decide) rfl "/download/a/backups/rv_a_1.backup" (Or.inl rfl) (by decide)
    ⟨"rv_a_1.backup", true, 0⟩ (by decide) (by decide)

/-! ## Backup Executor — one device, one cycle (`backup.py:run_router_check`) -/

/-- The adapter-facing inputs of one executor cycle, i.e. the values the
device I/O of `run_router_check` produces: the parsed device clock
(`get_router_clock_iso`, which always yields a parseable ISO instant), the
detection-window log fetch, the backup-window log fetch (the call at line 153,
performed only when a backup is needed), the hash of the normalized export
(after the empty-export fallback), and `now = datetime.utcnow()`. -/
structure CycleInput where
  clock : Int
  detectionLogs : List LogEntry
  backupLogs : List LogEntry
  newHash : String
  now : Int
deriving Repr, DecidableEq

/-- One row of the `backups` table as inserted by `run_router_check`
(lines 254–275). -/
structure BackupRecord where
  createdAt : Int
  rscHash : String
  rscLink : String
  backupLink : String
  changeSummary : String
  logs : List LogEntry
  trigger : String
  wasForced : Bool
  wasChanged : Bool
deriving Repr, DecidableEq

/-- The outcome of one `run_router_check` cycle: the persisted router row, the
inserted backup row (if any), the `router_logs` rows inserted, and the alert
kinds emitted. -/
structure CycleResult where
  state : RouterState
  record : Option BackupRecord
  storedLogs : List LogEntry
  alerts : List String
deriving Repr, DecidableEq

/-- `safe_name(value)` from `backup.py` lines 16–17: keep alphanumerics, `-`
and `_`, replace everything else by `_`, then strip `_` from both ends. -/
def safe_name (v : String) : String :=
  let mapped := v.toList.map (fun c => if c.isAlphanum || c = '-' || c = '_' then c else '_')
  String.mk (((mapped.dropWhile (· = '_')).reverse.dropWhile (· = '_')).reverse)

/-- The artifact stamp `now.strftime("%Y%m%dT%H%M%SZ")`, modelled abstractly
as a decimal rendering of the instant (the calendar formatting itself is not
constrained by any claim). -/
def stampOf (t : Int) : String := toString t ++ "Z"

/-- `json.dumps({"backup": b, "rsc": r})` for the `last_backup_links` column. -/
def linksJson (b r : String) : String :=
  "\x7b\"backup\": \"" ++ b ++ "\", \"rsc\": \"" ++ r ++ "\"\x7d"

/-- The loop body of `run_router_check` lines 166–174 (track the latest
parseable `logged_at`). -/
def latestStep (acc : Option Int) (e : LogEntry) : Option Int :=
  match e.loggedAt with
  | none => acc
  | some t =>
    match acc with
    | none => some t
    | some m => if t > m then some t else some m

/-- The fold of `latestStep` over a log slice, starting from `latest = None`. -/
def latestAux : Option Int → List LogEntry → Option Int
  | acc, [] => acc
  | acc, e :: rest => latestAux (latestStep acc e) rest

/-- `latest_log_dt` of `run_router_check` lines 166–174: the newest parseable
timestamp of the kept slice, if any. -/
def latest_log_dt (logs : List LogEntry) : Option Int := latestAux none logs

/-- Initial `backup_log_cursor` (line 151): the anchor passed to the
backup-window `fetch_logs` call —
`last_backup_log_at or last_backup_at or last_success_at`. -/
def backup_log_cursor_init (r : RouterState) : Option Int :=
  (r.lastBackupLogAt.orElse fun _ => (r.lastBackupAt.orElse fun _ => r.lastSuccessAt))

/-- The cap of lines 163–164: `if len(backup_logs) > max_backup_logs:
backup_logs = backup_logs[-max_backup_logs:]` with `max_backup_logs = 200`. -/
def cap200 (l : List LogEntry) : List LogEntry :=
  if l.length > 200 then l.drop (l.length - 200) else l

/-- The audit slice kept for the backup (lines 155–164): if the backup window
exceeds the noise threshold (400) substitute the detection window, then cap to
the 200 most recent entries. -/
def kept_slice (inp : CycleInput) : List LogEntry :=
  cap200 (if inp.backupLogs.length > 400 then inp.detectionLogs else inp.backupLogs)

/-- The new backup cursor on a backup cycle (lines 166–178): one second past
the newest parseable timestamp of the kept slice, or the detection cursor
`clock − 1` when no entry parses. -/
def backup_cursor_of (inp : CycleInput) : Int :=
  match latest_log_dt (kept_slice inp) with
  | some t => t + 1
  | none => inp.clock - 1

/-- The artifact base name of lines 180–184: `rv_{slug}_{stamp}`. -/
def base_name_of (r : RouterState) (inp : CycleInput) : String :=
  "rv_" ++ safe_name r.name ++ "_" ++ stampOf inp.now

/-- The download link of the binary backup artifact (lines 218–219). -/
def backup_link_of (r : RouterState) (inp : CycleInput) : String :=
  "/download/" ++ safe_name r.name ++ "/backups/" ++ base_name_of r inp ++ ".backup"

/-- The download link of the text export artifact (lines 218–220). -/
def rsc_link_of (r : RouterState) (inp : CycleInput) : String :=
  "/download/" ++ safe_name r.name ++ "/rsc/" ++ base_name_of r inp ++ ".rsc"

/-- `changed` of line 144. -/
def changed_of (r : RouterState) (inp : CycleInput) : Bool :=
  (detect_change inp.detectionLogs inp.newHash r.lastHash).1

/-- `summary` of line 144. -/
def summary_of (r : RouterState) (inp : CycleInput) : String :=
  (detect_change inp.detectionLogs inp.newHash r.lastHash).2

/-- `forced` of line 145: `bool(force) or (baseline_due and should_force_backup(router, now))`. -/
def forced_of (r : RouterState) (inp : CycleInput) (baselineDue force : Bool) : Bool :=
  force || (baselineDue && should_force_backup r inp.now)

/-- `needs_backup` of line 146: `changed or forced`. -/
def needs_backup_of (r : RouterState) (inp : CycleInput) (baselineDue force : Bool) : Bool :=
  changed_of r inp || forced_of r inp baselineDue force

/-- `run_router_check(router, baseline_due, force, trigger)` from `backup.py`
lines 104–325, restricted to its persisted effects: the router-row `UPDATE`
(lines 222–253), the `backups` `INSERT` (lines 254–275), the `router_logs`
inserts (lines 276–292) and the alert emissions (lines 294–325).  Artifact
file writes and the retention sweep act on the file system and are modelled
separately (`retention_sweep`). -/
def run_router_check (r : RouterState) (inp : CycleInput) (baselineDue force : Bool)
    (trigger : String) : CycleResult :=
  let logCursor : Int := inp.clock - 1
  let changed := changed_of r inp
  let forced := forced_of r inp baselineDue force
  let needsBackup := changed || forced
  let kept := kept_slice inp
  let backupCursor := backup_cursor_of inp
  let backupLink := if needsBackup then backup_link_of r inp else ""
  let rscLink := if needsBackup then rsc_link_of r inp else ""
  let newState : RouterState := { r with
    lastLogCheckAt := some logCursor
    lastBackupLogAt := if needsBackup then some backupCursor else r.lastBackupLogAt
    lastHash := some inp.newHash
    lastBackupAt := if needsBackup then some inp.now else r.lastBackupAt
    lastSuccessAt := if needsBackup then some inp.now else r.lastSuccessAt
    lastError := none
    lastConfigChangeAt := if changed then some inp.now else r.lastConfigChangeAt
    lastBackupLinks := if needsBackup then some (linksJson backupLink rscLink) else r.lastBackupLinks
    lastCheckAt := some inp.now
    lastBaselineAt := if baselineDue then some inp.now else r.lastBaselineAt
    updatedAt := some inp.now }
  let record : Option BackupRecord :=
    if needsBackup then
      some { createdAt := inp.now, rscHash := inp.newHash, rscLink := rscLink,
             backupLink := backupLink, changeSummary := summary_of r inp, logs := kept,
             trigger := trigger, wasForced := forced, wasChanged := changed }
    else none
  let priorError := (r.lastError.getD "").trim
  let alerts :=
    (if priorError ≠ "" then ["router_recovered"] else []) ++
    (if needsBackup then [if trigger = "manual" then "manual_backup" else "backup_created"] else [])
  { state := newState, record := record,
    storedLogs := if needsBackup then kept else inp.detectionLogs, alerts := alerts }

/-! ## Shared facts about one cycle's persisted state -/

theorem run_router_check_lastLogCheckAt (r : RouterState) (inp : CycleInput)
    (baselineDue force : Bool) (trigger : String) :
    (run_router_check r inp baselineDue force trigger).state.lastLogCheckAt =
      some (inp.clock - 1) := by
  unfold run_router_check
  cases h : (changed_of r inp || forced_of r inp baselineDue force) <;> simp [h]

theorem run_router_check_lastBackupLogAt_keep (r : RouterState) (inp : CycleInput)
    (baselineDue force : Bool) (trigger : String)
    (h : needs_backup_of r inp baselineDue force = false) :
    (run_router_check r inp baselineDue force trigger).state.lastBackupLogAt =
      r.lastBackupLogAt := by
  unfold needs_backup_of at h
  unfold run_router_check
  simp [h]

theorem run_router_check_lastBackupLogAt_set (r : RouterState) (inp : CycleInput)
    (baselineDue force : Bool) (trigger : String)
    (h : needs_backup_of r inp baselineDue force = true) :
    (run_router_check r inp baselineDue force trigger).state.lastBackupLogAt =
      some (backup_cursor_of inp) := by
  unfold needs_backup_of at h
  unfold run_router_check
  simp [h]

/-! ## Claim C7 — frame/effect of one successful cycle -/

/-- **C7**: every cycle that completes sets `lastError` to `None` regardless
of whether a backup was produced, and updates `lastBackupAt`, `lastSuccessAt`,
`lastBackupLogCursor` and the backup links iff `needsBackup` was true; on a
no-backup cycle those four keep their prior values while `lastCheckAt`,
`lastConfigHash` (`last_hash`) and `lastLogCheckCursor` are still updated. -/
theorem run_router_check_frame (r : RouterState) (inp : CycleInput)
    (baselineDue force : Bool) (trigger : String) :
    (run_router_check r inp baselineDue force trigger).state.lastError = none ∧
    (run_router_check r inp baselineDue force trigger).state.lastCheckAt = some inp.now ∧
    (run_router_check r inp baselineDue force trigger).state.lastHash = some inp.newHash ∧
    (run_router_check r inp baselineDue force trigger).state.lastLogCheckAt =
      some (inp.clock - 1) ∧
    (needs_backup_of r inp baselineDue force = false →
      (run_router_check r inp baselineDue force trigger).state.lastBackupAt = r.lastBackupAt ∧
      (run_router_check r inp baselineDue force trigger).state.lastSuccessAt = r.lastSuccessAt ∧
      (run_router_check r inp baselineDue force trigger).state.lastBackupLogAt = r.lastBackupLogAt ∧
      (run_router_check r inp baselineDue force trigger).state.lastBackupLinks = r.lastBackupLinks) ∧
    (needs_backup_of r inp baselineDue force = true →
      (run_router_check r inp baselineDue force trigger).state.lastBackupAt = some inp.now ∧
      (run_router_check r inp baselineDue force trigger).state.lastSuccessAt = some inp.now ∧
      (run_router_check r inp baselineDue force trigger).state.lastBackupLogAt =
        some (backup_cursor_of inp) ∧
      (run_router_check r inp baselineDue force trigger).state.lastBackupLinks =
        some (linksJson (backup_link_of r inp) (rsc_link_of r inp))) := by
  unfold run_router_check needs_backup_of
  cases h : (changed_of r inp || forced_of r inp baselineDue force) <;>
    simp [h]

/-- Concrete no-change cycle for witnesses: stored hash equals the new hash,
nothing forces. -/
def c7Router : RouterState :=
  { c2Router with lastHash := some "h", lastBackupAt := some 5, lastSuccessAt := some 5,
                  lastBackupLogAt := some 6, lastBackupLinks := some "old" }

def c7Input : CycleInput := ⟨100, [], [], "h", 200⟩

theorem run_router_check_frame_witness :
    ((run_router_check c7Router c7Input false false "auto").state.lastBackupAt =
        c7Router.lastBackupAt ∧
      (run_router_check c7Router c7Input false false "auto").state.lastBackupLogAt =
        c7Router.lastBackupLogAt) ∧
    (run_router_check c7Router c7Input false true "manual").state.lastSuccessAt = some 200 :=
  ⟨⟨((run_router_check_frame c7Router c7Input false false "auto").2.2.2.2.1 (by decide)).1,
    ((run_router_check_frame c7Router c7Input false false "auto").2.2.2.2.1 (by decide)).2.2.1⟩,
   ((run_router_check_frame c7Router c7Input false true "manual").2.2.2.2.2 (by decide)).2.1⟩

/-! ## Claim C8 — backup log window, cap, and cursor advance -/

/-- The `n` most recent entries of a slice (RouterOS log order is
oldest-first, so `backup_logs[-max_backup_logs:]` is a suffix). -/
def takeLast {α : Type} (n : Nat) (l : List α) : List α := l.drop (l.length - n)

theorem length_takeLast {α : Type} (n : Nat) (l : List α) : (takeLast n l).length ≤ n := by
  unfold takeLast; rw [List.length_drop]; omega

theorem cap200_eq_takeLast (l : List LogEntry) : cap200 l = takeLast 200 l := by
  unfold cap200 takeLast
  split
  · rfl
  · next hle => rw [Nat.sub_eq_zero_of_le (by omega), List.drop_zero]

theorem cap200_subset (l : List LogEntry) : ∀ e ∈ cap200 l, e ∈ l := by
  intro e he
  rw [cap200_eq_takeLast] at he
  exact List.drop_subset _ _ he

theorem kept_slice_noisy (inp : CycleInput) (h : inp.backupLogs.length > 400) :
    kept_slice inp = takeLast 200 inp.detectionLogs := by
  unfold kept_slice
  rw [if_pos h, cap200_eq_takeLast]

theorem kept_slice_quiet (inp : CycleInput) (h : ¬ inp.backupLogs.length > 400) :
    kept_slice inp = takeLast 200 inp.backupLogs := by
  unfold kept_slice
  rw [if_neg h, cap200_eq_takeLast]

theorem kept_slice_length (inp : CycleInput) : (kept_slice inp).length ≤ 200 := by
  by_cases h : inp.backupLogs.length > 400
  · rw [kept_slice_noisy inp h]; exact length_takeLast 200 _
  · rw [kept_slice_quiet inp h]; exact length_takeLast 200 _

theorem kept_slice_subset (inp : CycleInput) :
    ∀ e ∈ kept_slice inp, e ∈ inp.backupLogs ∨ e ∈ inp.detectionLogs := by
  intro e he
  unfold kept_slice at he
  by_cases h : inp.backupLogs.length > 400
  · rw [if_pos h] at he
    exact Or.inr (cap200_subset _ e he)
  · rw [if_neg h] at he
    exact Or.inl (cap200_subset _ e he)

theorem latestStep_acc_le (a : Option Int) (e : LogEntry) (u : Int) (h : a = some u) :
    ∃ v, latestStep a e = some v ∧ u ≤ v := by
  subst h
  cases he : e.loggedAt with
  | none => exact ⟨u, by simp [latestStep, he], le_refl u⟩
  | some t =>
    by_cases htu : t > u
    · exact ⟨t, by simp [latestStep, he, htu], le_of_lt htu⟩
    · exact ⟨u, by simp [latestStep, he, htu], le_refl u⟩

theorem latestStep_entry_le (a : Option Int) (e : LogEntry) (u : Int) (h : e.loggedAt = some u) :
    ∃ v, latestStep a e = some v ∧ u ≤ v := by
  cases a with
  | none => exact ⟨u, by simp [latestStep, h], le_refl u⟩
  | some m =>
    by_cases hum : u > m
    · exact ⟨u, by simp [latestStep, h, hum], le_refl u⟩
    · exact ⟨m, by simp [latestStep, h, hum], by omega⟩

theorem latestAux_ub (l : List LogEntry) :
    ∀ (a : Option Int) (t : Int), latestAux a l = some t →
      (∀ u, a = some u → u ≤ t) ∧ (∀ e ∈ l, ∀ u, e.loggedAt = some u → u ≤ t) := by
  induction l with
  | nil =>
    intro a t h
    refine ⟨fun u hu => ?_, by simp⟩
    rw [hu] at h
    exact le_of_eq (Option.some.inj (by simpa [latestAux] using h))
  | cons e rest ih =>
    intro a t h
    have h' : latestAux (latestStep a e) rest = some t := h
    obtain ⟨h1, h2⟩ := ih (latestStep a e) t h'
    refine ⟨fun u hu => ?_, fun e' he' u hu => ?_⟩
    · obtain ⟨v, hv, huv⟩ := latestStep_acc_le a e u hu
      exact le_trans huv (h1 v hv)
    · rcases List.mem_cons.mp he' with rfl | hmem
      · obtain ⟨v, hv, huv⟩ := latestStep_entry_le a e' u hu
        exact le_trans huv (h1 v hv)
      · exact h2 e' hmem u hu

theorem latestStep_eq_some (a : Option Int) (e : LogEntry) (t : Int)
    (h : latestStep a e = some t) : a = some t ∨ e.loggedAt = some t := by
  unfold latestStep at h
  split at h
  · exact Or.inl h
  · next u heq =>
    split at h
    · exact Or.inr (by rw [heq, h])
    · split at h
      · exact Or.inr (by rw [heq, h])
      · exact Or.inl h

theorem latestAux_mem (l : List LogEntry) :
    ∀ (a : Option Int) (t : Int), latestAux a l = some t →
      a = some t ∨ ∃ e ∈ l, e.loggedAt = some t := by
  induction l with
  | nil => intro a t h; exact Or.inl h
  | cons e rest ih =>
    intro a t h
    rcases ih (latestStep a e) t h with hstep | ⟨e', he', ht⟩
    · rcases latestStep_eq_some a e t hstep with ha | hl
      · exact Or.inl ha
      · exact Or.inr ⟨e, List.mem_cons_self e rest, hl⟩
    · exact Or.inr ⟨e', List.mem_cons_of_mem _ he', ht⟩

theorem latestAux_none_of (l : List LogEntry) :
    ∀ a, (∀ e ∈ l, e.loggedAt = none) → latestAux a l = a := by
  induction l with
  | nil => intro a _; rfl
  | cons e rest ih =>
    intro a h
    have he : e.loggedAt = none := h e (List.mem_cons_self e rest)
    have : latestStep a e = a := by simp [latestStep, he]
    calc latestAux a (e :: rest) = latestAux (latestStep a e) rest := rfl
    _ = latestAux a rest := by rw [this]
    _ = a := ih a (fun e' he' => h e' (List.mem_cons_of_mem _ he'))

theorem latestStep_isSome_of (a : Option Int) (e : LogEntry)
    (h : a.isSome ∨ e.loggedAt.isSome) : (latestStep a e).isSome := by
  rcases h with ha | hb
  · obtain ⟨u, hu⟩ := Option.isSome_iff_exists.mp ha
    obtain ⟨v, hv, _⟩ := latestStep_acc_le a e u hu
    rw [hv]; rfl
  · obtain ⟨u, hu⟩ := Option.isSome_iff_exists.mp hb
    obtain ⟨v, hv, _⟩ := latestStep_entry_le a e u hu
    rw [hv]; rfl

theorem latestAux_isSome (l : List LogEntry) :
    ∀ a, (a.isSome ∨ ∃ e ∈ l, e.loggedAt.isSome) → (latestAux a l).isSome := by
  induction l with
  | nil =>
    intro a h
    rcases h with ha | ⟨e, he, _⟩
    · exact ha
    · cases he
  | cons e rest ih =>
    intro a h
    have : latestAux a (e :: rest) = latestAux (latestStep a e) rest := rfl
    rw [this]
    rcases h with ha | ⟨e', he', hs⟩
    · exact ih _ (Or.inl (latestStep_isSome_of a e (Or.inl ha)))
    · rcases List.mem_cons.mp he' with rfl | hmem
      · exact ih _ (Or.inl (latestStep_isSome_of a e' (Or.inr hs)))
      · exact ih _ (Or.inr ⟨e', hmem, hs⟩)

theorem storedLogs_of_needs (r : RouterState) (inp : CycleInput)
    (baselineDue force : Bool) (trigger : String)
    (h : needs_backup_of r inp baselineDue force = true) :
    (run_router_check r inp baselineDue force trigger).storedLogs = kept_slice inp ∧
    (run_router_check r inp baselineDue force trigger).state.lastBackupLogAt =
      some (backup_cursor_of inp) := by
  unfold needs_backup_of at h
  unfold run_router_check
  simp [h]

/-- **C8**: on every cycle with `needsBackup` true, the stored audit slice is
the backup-window fetch unless that window exceeds 400 entries (in which case
the detection-window logs are substituted), capped to the 200 most recent
entries — hence never exceeding 200; and the backup cursor is advanced to one
second past the newest parseable timestamp in the kept slice, or set to the
detection cursor `clock − 1` when no entry has a parseable timestamp. -/
theorem run_router_check_backup_window (r : RouterState) (inp : CycleInput)
    (baselineDue force : Bool) (trigger : String)
    (h : needs_backup_of r inp baselineDue force = true) :
    (inp.backupLogs.length > 400 →
      (run_router_check r inp baselineDue force trigger).storedLogs =
        takeLast 200 inp.detectionLogs) ∧
    (inp.backupLogs.length ≤ 400 →
      (run_router_check r inp baselineDue force trigger).storedLogs =
        takeLast 200 inp.backupLogs) ∧
    (run_router_check r inp baselineDue force trigger).storedLogs.length ≤ 200 ∧
    ((∃ e ∈ (run_router_check r inp baselineDue force trigger).storedLogs,
        e.loggedAt.isSome) →
      ∃ t, (∃ e ∈ (run_router_check r inp baselineDue force trigger).storedLogs,
              e.loggedAt = some t) ∧
        (∀ e ∈ (run_router_check r inp baselineDue force trigger).storedLogs,
          ∀ u, e.loggedAt = some u → u ≤ t) ∧
        (run_router_check r inp baselineDue force trigger).state.lastBackupLogAt =
          some (t + 1)) ∧
    ((∀ e ∈ (run_router_check r inp baselineDue force trigger).storedLogs,
        e.loggedAt = none) →
      (run_router_check r inp baselineDue force trigger).state.lastBackupLogAt =
        some (inp.clock - 1) ∧
      (run_router_check r inp baselineDue force trigger).state.lastLogCheckAt =
        some (inp.clock - 1)) := by
  obtain ⟨hlogs, hcur⟩ := storedLogs_of_needs r inp baselineDue force trigger h
  refine ⟨?_, ?_, ?_, ?_, ?_⟩
  · intro hn; rw [hlogs]; exact kept_slice_noisy inp hn
  · intro hn; rw [hlogs]; exact kept_slice_quiet inp (by omega)
  · rw [hlogs]; exact kept_slice_length inp
  · intro hex
    rw [hlogs] at hex
    have hsome : (latestAux none (kept_slice inp)).isSome :=
      latestAux_isSome (kept_slice inp) none (Or.inr hex)
    obtain ⟨t, ht⟩ := Option.isSome_iff_exists.mp hsome
    have htl : latest_log_dt (kept_slice inp) = some t := ht
    refine ⟨t, ?_, ?_, ?_⟩
    · rw [hlogs]
      rcases latestAux_mem (kept_slice inp) none t htl with hn | hmem
      · cases hn
      · exact hmem
    · rw [hlogs]
      exact (latestAux_ub (kept_slice inp) none t htl).2
    · rw [hcur]
      unfold backup_cursor_of
      rw [htl]
  · intro hall
    rw [hlogs] at hall
    have hnone : latest_log_dt (kept_slice inp) = none :=
      latestAux_none_of (kept_slice inp) none hall
    constructor
    · rw [hcur]; unfold backup_cursor_of; rw [hnone]
    · exact run_router_check_lastLogCheckAt r inp baselineDue force trigger

theorem run_router_check_backup_window_witness :
    (run_router_check c2Router ⟨20, [], [⟨some 15, "system", "x set by admin"⟩], "h2", 20⟩
        false false "auto").storedLogs = takeLast 200 [⟨some 15, "system", "x set by admin"⟩] ∧
    (run_router_check c2Router ⟨20, [], [⟨some 15, "system", "x set by admin"⟩], "h2", 20⟩
        false false "auto").storedLogs.length ≤ 200 :=
  ⟨(run_router_check_backup_window c2Router
      ⟨20, [], [⟨some 15, "system", "x set by admin"⟩], "h2", 20⟩ false false "auto"
      (by decide)).2.1 (by decide),
   (run_router_check_backup_window c2Router
      ⟨20, [], [⟨some 15, "system", "x set by admin"⟩], "h2", 20⟩ false false "auto"
      (by decide)).2.2.1⟩

/-! ## Claim C3 — cursor monotonicity across cycles -/

def c3Router : RouterState :=
  { c2Router with lastLogCheckAt := some 100, lastBackupLogAt := some 100, lastHash := some "h" }

def c3Input : CycleInput := ⟨50, [], [], "h2", 50⟩

/-- **C3, counterexample**: with stored cursors at 100 and a cycle whose
device clock reads 50 (a clock that stepped back, or an immediate re-run after
a cycle whose backup cursor was derived from a log timestamp at or past the
clock), the hash change forces a backup, the backup window is empty, and both
persisted cursors move backwards from 100 to 49. -/
theorem run_router_check_cursor_decrease :
    c3Router.lastLogCheckAt = some 100 ∧ c3Router.lastBackupLogAt = some 100 ∧
    (run_router_check c3Router c3Input false false "auto").state.lastLogCheckAt = some 49 ∧
    (run_router_check c3Router c3Input false false "auto").state.lastBackupLogAt = some 49 := by
  refine ⟨rfl, rfl, ?_, ?_⟩ <;> decide

/-- **C3, amended**: the persisted cursors are non-decreasing across a cycle
provided the environment is well-behaved — the clock-derived detection cursor
`clock − 1` is at least each stored cursor, and every parseable fetched log
timestamp is at least the stored backup cursor (which `fetch_logs` guarantees
for the backup window, but the device clock and the noisy-window substitution
can violate for the others).  `lastBackupLogCursor` is unchanged on a cycle
with no backup. -/
theorem run_router_check_cursor_mono (r : RouterState) (inp : CycleInput)
    (baselineDue force : Bool) (trigger : String)
    (hclock1 : ∀ t, r.lastLogCheckAt = some t → t ≤ inp.clock - 1)
    (hclock2 : ∀ t, r.lastBackupLogAt = some t → t ≤ inp.clock - 1)
    (hlogs : ∀ t, r.lastBackupLogAt = some t →
      ∀ e, (e ∈ inp.backupLogs ∨ e ∈ inp.detectionLogs) →
      ∀ u, e.loggedAt = some u → t ≤ u) :
    (∀ t, r.lastLogCheckAt = some t →
      ∃ v, (run_router_check r inp baselineDue force trigger).state.lastLogCheckAt = some v ∧
        t ≤ v) ∧
    (∀ t, r.lastBackupLogAt = some t →
      ∃ v, (run_router_check r inp baselineDue force trigger).state.lastBackupLogAt = some v ∧
        t ≤ v) := by
  constructor
  · intro t ht
    exact ⟨inp.clock - 1,
      run_router_check_lastLogCheckAt r inp baselineDue force trigger, hclock1 t ht⟩
  · intro t ht
    cases hnb : needs_backup_of r inp baselineDue force with
    | false =>
      have hkeep := run_router_check_lastBackupLogAt_keep r inp baselineDue force trigger hnb
      exact ⟨t, by rw [hkeep, ht], le_refl t⟩
    | true =>
      have hcur := run_router_check_lastBackupLogAt_set r inp baselineDue force trigger hnb
      refine ⟨backup_cursor_of inp, hcur, ?_⟩
      unfold backup_cursor_of
      cases hl : latest_log_dt (kept_slice inp) with
      | none => exact hclock2 t ht
      | some u =>
        rcases latestAux_mem (kept_slice inp) none u hl with hn | ⟨e, he, hu⟩
        · cases hn
        · have hb := hlogs t ht e (kept_slice_subset inp e he) u hu
          show t ≤ u + 1
          omega

theorem run_router_check_cursor_mono_witness :
    ∃ v, (run_router_check
        { c2Router with lastLogCheckAt := some 10, lastBackupLogAt := some 10,
                        lastHash := some "h" }
        ⟨20, [], [⟨some 15, "system", "x set by admin"⟩], "h2", 20⟩
        false false "auto").state.lastBackupLogAt = some v ∧ (10 : Int) ≤ v :=
  (run_router_check_cursor_mono
      { c2Router with lastLogCheckAt := some 10, lastBackupLogAt := some 10,
                      lastHash := some "h" }
      ⟨20, [], [⟨some 15, "system", "x set by admin"⟩], "h2", 20⟩
      false false "auto"
      (by intro t ht; injection ht with h; subst h; decide)
      (by intro t ht; injection ht with h; subst h; decide)
      (by
        intro t ht e hmem u hu
        injection ht with h
        subst h
        rcases hmem with hm | hm
        · rcases List.mem_singleton.mp hm with rfl
          injection hu with h2
          subst h2
          decide
        · cases hm)).2
    10 rfl

/-! ## Claim C6 — daily baseline fires at most once per local day -/

/-- **C6**: `baselineDue` is false when no baseline time is configured, false
when `lastBaselineAt`'s local (Asia/Manila) calendar date equals `now`'s local
date, and otherwise true iff `now`'s local time-of-day is at or past the
configured time; and because `run_router_check` stamps `lastBaselineAt` with
the cycle instant whenever it ran with `baselineDue` set, `baselineDue` is
false for the rest of that local calendar day — hence true at most once per
local day over any sequence of ticks whose due cycles complete. -/
theorem is_baseline_due_spec (r : RouterState) (now : Int) :
    (r.dailyBaselineTime = none → is_baseline_due r now = false) ∧
    (∀ hh mm, r.dailyBaselineTime = some (hh, mm) →
      ((∃ t, r.lastBaselineAt = some t ∧ manilaDate t = manilaDate now) →
        is_baseline_due r now = false) ∧
      ((∀ t, r.lastBaselineAt = some t → manilaDate t ≠ manilaDate now) →
        is_baseline_due r now = decide (manilaSec now ≥ hh * 3600 + mm * 60))) ∧
    (∀ inp force trigger,
      (run_router_check r inp true force trigger).state.lastBaselineAt = some inp.now) ∧
    (∀ inp force trigger now2, manilaDate inp.now = manilaDate now2 →
      is_baseline_due (run_router_check r inp true force trigger).state now2 = false) := by
  refine ⟨?_, ?_, ?_, ?_⟩
  · intro h; simp [is_baseline_due, h]
  · intro hh mm hcfg
    constructor
    · rintro ⟨t, ht, hd⟩
      simp [is_baseline_due, hcfg, ht, hd]
    · intro hne
      cases hb : r.lastBaselineAt with
      | none => simp [is_baseline_due, hcfg, hb, ge_iff_le]
      | some t => simp [is_baseline_due, hcfg, hb, hne t hb, ge_iff_le]
  · intro inp force trigger
    unfold run_router_check
    cases h : (changed_of r inp || forced_of r inp true force) <;> simp [h]
  · intro inp force trigger now2 hd
    have hst : (run_router_check r inp true force trigger).state.lastBaselineAt = some inp.now := by
      unfold run_router_check
      cases h : (changed_of r inp || forced_of r inp true force) <;> simp [h]
    have hcfg : (run_router_check r inp true force trigger).state.dailyBaselineTime =
        r.dailyBaselineTime := by
      unfold run_router_check
      cases h : (changed_of r inp || forced_of r inp true force) <;> simp [h]
    unfold is_baseline_due
    rw [hcfg, hst]
    cases hdb : r.dailyBaselineTime with
    | none => rfl
    | some p => simp [hd]

def c6Router : RouterState :=
  { c2Router with dailyBaselineTime := some (2, 0), lastHash := some "h" }

/-- **C6 witness**: baseline time 02:00, no prior baseline — at local 02:30
(instant 66600 = day 1, 02:30 Manila) the baseline is due; after the cycle
runs with `baselineDue` set, it is no longer due later that same local day. -/
theorem is_baseline_due_spec_witness :
    is_baseline_due c6Router 66600 = true ∧
    is_baseline_due (run_router_check c6Router ⟨66600, [], [], "h", 66600⟩
        true false "auto").state 68000 = false := by
  constructor
  · have h := ((is_baseline_due_spec c6Router 66600).2.1 2 0 rfl).2
      (fun t ht => by cases ht)
    rw [h]; decide
  · exact (is_baseline_due_spec c6Router 66600).2.2.2 ⟨66600, [], [], "h", 66600⟩
      false "auto" 68000 (by decide)

/-! ## Fleet Scheduler Loop (`backup.py:run_scheduled_checks`) -/

/-- The outcome of attempting one device's executor invocation: either the
cycle's adapter inputs (the cycle completes with them), or the message of the
exception it raised. -/
inductive RouterOutcome where
  | ok (inp : CycleInput)
  | fail (msg : String)
deriving Repr, DecidableEq

/-- What one tick records for one device: its persisted row and the alert
kinds emitted on its behalf. -/
structure TickResult where
  state : RouterState
  alerts : List String
deriving Repr, DecidableEq

/-- The per-device body of the scheduler loop (`backup.py` lines 343–372):
compute both due flags; if either holds, run the executor; on an exception,
record `last_error` / `last_check_at` / `updated_at` on that device's row and
emit a `backup_failed` alert.  A device that is not due is left untouched. -/
def processRouter (now : Int) (p : RouterState × RouterOutcome) : TickResult :=
  let bd := is_baseline_due p.1 now
  let idue := is_interval_due p.1 now
  if bd || idue then
    match p.2 with
    | .ok inp => { state := (run_router_check p.1 inp bd false "auto").state,
                   alerts := (run_router_check p.1 inp bd false "auto").alerts }
    | .fail msg =>
      { state := { p.1 with lastError := some msg, lastCheckAt := some now,
                            updatedAt := some now },
        alerts := ["backup_failed"] }
  else { state := p.1, alerts := [] }

/-- `run_scheduled_checks` (`backup.py` lines 328–378) restricted to its
per-device effects: the loop over the enabled devices.  (The heartbeat stamp
and the final alert cleanup touch global state outside the per-device rows.)
Each device is paired with the outcome its executor invocation would have. -/
def run_scheduled_checks (now : Int) : List (RouterState × RouterOutcome) → List TickResult
  | [] => []
  | p :: rest => processRouter now p :: run_scheduled_checks now rest

theorem run_scheduled_checks_eq_map (now : Int) (fleet : List (RouterState × RouterOutcome)) :
    run_scheduled_checks now fleet = fleet.map (processRouter now) := by
  induction fleet with
  | nil => rfl
  | cons p rest ih => simp [run_scheduled_checks, ih]

/-- **C5**: over any fleet, every device is processed in the tick and its
result depends only on its own row and outcome; in particular a device whose
executor invocation raises gets `lastError` / `lastCheckAt` recorded and a
`backup_failed` alert, and every other device of the tick is still processed
exactly as it would be alone — one device's failure never aborts the tick. -/
theorem run_scheduled_checks_isolation (now : Int)
    (fleet : List (RouterState × RouterOutcome)) :
    (run_scheduled_checks now fleet).length = fleet.length ∧
    (∀ (i : Nat) (p : RouterState × RouterOutcome), fleet[i]? = some p →
      (run_scheduled_checks now fleet)[i]? = some (processRouter now p)) ∧
    (∀ (i : Nat) (r : RouterState) (msg : String),
      fleet[i]? = some (r, RouterOutcome.fail msg) →
      (is_baseline_due r now || is_interval_due r now) = true →
      (run_scheduled_checks now fleet)[i]? =
        some ({ state := { r with lastError := some msg, lastCheckAt := some now,
                                  updatedAt := some now },
                alerts := ["backup_failed"] } : TickResult)) := by
  refine ⟨?_, ?_, ?_⟩
  · rw [run_scheduled_checks_eq_map, List.length_map]
  · intro i p hp
    rw [run_scheduled_checks_eq_map, List.getElem?_map, hp]
    rfl
  · intro i r msg hp hdue
    rw [run_scheduled_checks_eq_map, List.getElem?_map, hp]
    simp [processRouter, hdue]

def c5Fleet : List (RouterState × RouterOutcome) :=
  [({ c2Router with name := "r1", lastHash := some "h" }, RouterOutcome.ok ⟨20, [], [], "h", 20⟩),
   ({ c2Router with name := "r2" }, RouterOutcome.fail "boom"),
   ({ c2Router with name := "r3", lastHash := some "h" }, RouterOutcome.ok ⟨20, [], [], "h", 20⟩)]

/-- **C5 witness**: three enabled due devices, device 2's executor raises —
device 2's row records the error and the alert, and device 3 is still
processed in the same tick. -/
theorem run_scheduled_checks_isolation_witness :
    (run_scheduled_checks 20 c5Fleet)[1]? =
      some ({ state :=
                { c2Router with
                    name := "r2", lastError := some "boom",
                    lastCheckAt := some 20, updatedAt := some 20 },
              alerts := ["backup_failed"] } : TickResult) ∧
    (run_scheduled_checks 20 c5Fleet)[2]? =
      some (processRouter 20 ({ c2Router with name := "r3", lastHash := some "h" },
        RouterOutcome.ok ⟨20, [], [], "h", 20⟩)) :=
  ⟨(run_scheduled_checks_isolation 20 c5Fleet).2.2 1 { c2Router with name := "r2" } "boom"
      (by decide) (by decide),
   (run_scheduled_checks_isolation 20 c5Fleet).2.1 2
      ({ c2Router with name := "r3", lastHash := some "h" }, RouterOutcome.ok ⟨20, [], [], "h", 20⟩)
      (by decide)⟩

/-! ## Change Detector normalization (`mikrotik.py:normalize_export`)

Python text is modelled as `List Char`.  `str.splitlines` splits on Python's
line-boundary set (treating `"\r\n"` as a single boundary and producing no
trailing empty line), and `str.strip()` drops Unicode whitespace from both
ends. -/

/-- Python's `str.splitlines` line-boundary characters. -/
def pyIsLineBreak (c : Char) : Bool :=
  c == '\n' || c == '\r' || c == '\x0b' || c == '\x0c' ||
  c == '\x1c' || c == '\x1d' || c == '\x1e' || c == '\x85' ||
  c == ' ' || c == ' '

/-- Python's `str.strip()` whitespace characters. -/
def pyIsSpace (c : Char) : Bool :=
  c == ' ' || c == '\t' || c == '\n' || c == '\r' || c == '\x0b' || c == '\x0c' ||
  c == '\x1c' || c == '\x1d' || c == '\x1e' || c == '\x1f' || c == '\x85' ||
  c == '\xa0' || c == ' ' || (' ' ≤ c && c ≤ ' ') ||
  c == ' ' || c == ' ' || c == ' ' || c == ' ' || c == '　'

/-- `str.splitlines`, accumulating the current line in reverse; `skipNL` is
set right after a `'\r'` boundary so that a following `'\n'` is absorbed into
the same `"\r\n"` boundary. -/
def splitlinesAux (skipNL : Bool) (acc : List Char) : List Char → List (List Char)
  | [] => if acc.isEmpty then [] else [acc.reverse]
  | c :: cs =>
    if skipNL && c == '\n' then
      splitlinesAux false acc cs
    else if pyIsLineBreak c then
      acc.reverse :: splitlinesAux (c == '\r') [] cs
    else
      splitlinesAux false (c :: acc) cs

/-- Python `text.splitlines()`. -/
def splitlines (s : List Char) : List (List Char) := splitlinesAux false [] s

/-- Python `line.strip()`. -/
def pyStrip (l : List Char) : List Char :=
  ((l.dropWhile pyIsSpace).reverse.dropWhile pyIsSpace).reverse

/-- The kept lines of `normalize_export`: each line stripped, blank and
`#`-comment lines dropped (`mikrotik.py` lines 344–349). -/
def keptLines (text : List Char) : List (List Char) :=
  ((splitlines text).map pyStrip).filter (fun s => !(s.isEmpty || s.head? == some '#'))

/-- Python `"\n".join(lines)`. -/
def joinNL : List (List Char) → List Char
  | [] => []
  | [l] => l
  | l :: l2 :: ls => l ++ '\n' :: joinNL (l2 :: ls)

/-- `normalize_export(text)` from `mikrotik.py` lines 343–350. -/
def normalize_export (text : List Char) : List Char := joinNL (keptLines text)

theorem splitlinesAux_breakfree (cs : List Char) :
    ∀ (skip : Bool) (acc : List Char), (∀ c ∈ acc, pyIsLineBreak c = false) →
      ∀ l ∈ splitlinesAux skip acc cs, ∀ c ∈ l, pyIsLineBreak c = false := by
  induction cs with
  | nil =>
    intro skip acc hacc l hl c hc
    simp only [splitlinesAux] at hl
    split at hl
    · cases hl
    · rw [List.mem_singleton] at hl
      subst hl
      exact hacc c (List.mem_reverse.mp hc)
  | cons c0 cs ih =>
    intro skip acc hacc l hl c hc
    simp only [splitlinesAux] at hl
    split at hl
    · exact ih false acc hacc l hl c hc
    · split at hl
      · rcases List.mem_cons.mp hl with rfl | hl'
        · exact hacc c (List.mem_reverse.mp hc)
        · exact ih _ [] (by intro x hx; cases hx) l hl' c hc
      · next h1 h2 =>
        refine ih false (c0 :: acc) ?_ l hl c hc
        intro x hx
        rcases List.mem_cons.mp hx with rfl | hx'
        · exact Bool.eq_false_iff.mpr h2
        · exact hacc x hx'

theorem splitlinesAux_join (l : List Char) :
    ∀ (acc cs : List Char), (∀ c ∈ l, pyIsLineBreak c = false) →
      splitlinesAux false acc (l ++ '\n' :: cs) =
        (acc.reverse ++ l) :: splitlinesAux false [] cs := by
  induction l with
  | nil =>
    intro acc cs _
    rw [List.nil_append]
    simp [splitlinesAux, pyIsLineBreak]
  | cons c0 l' ih =>
    intro acc cs hl
    have h0 : pyIsLineBreak c0 = false := hl c0 (List.mem_cons_self c0 l')
    rw [List.cons_append]
    simp only [splitlinesAux]
    rw [if_neg (by simp), if_neg (by simp [h0])]
    rw [ih (c0 :: acc) cs (fun c hc => hl c (List.mem_cons_of_mem _ hc))]
    simp

theorem splitlinesAux_terminal (l : List Char) :
    ∀ acc, (∀ c ∈ l, pyIsLineBreak c = false) →
      splitlinesAux false acc l =
        if (acc.reverse ++ l).isEmpty then [] else [acc.reverse ++ l] := by
  induction l with
  | nil =>
    intro acc _
    simp only [splitlinesAux]
    simp
  | cons c0 l' ih =>
    intro acc hl
    have h0 : pyIsLineBreak c0 = false := hl c0 (List.mem_cons_self c0 l')
    simp only [splitlinesAux]
    rw [if_neg (by simp), if_neg (by simp [h0])]
    rw [ih (c0 :: acc) (fun c hc => hl c (List.mem_cons_of_mem _ hc))]
    simp

theorem splitlines_joinNL (ls : List (List Char))
    (h : ∀ l ∈ ls, l ≠ [] ∧ ∀ c ∈ l, pyIsLineBreak c = false) :
    splitlines (joinNL ls) = ls := by
  induction ls with
  | nil =>
    show splitlinesAux false [] [] = []
    simp [splitlinesAux]
  | cons l tail ih =>
    cases tail with
    | nil =>
      obtain ⟨hne, hbf⟩ := h l (List.mem_cons_self l [])
      show splitlinesAux false [] (joinNL [l]) = [l]
      rw [show joinNL [l] = l from rfl]
      rw [splitlinesAux_terminal l [] hbf]
      simp [hne]
    | cons l2 ls' =>
      obtain ⟨hne, hbf⟩ := h l (List.mem_cons_self l _)
      have ihh := ih (fun x hx => h x (List.mem_cons_of_mem _ hx))
      show splitlinesAux false [] (joinNL (l :: l2 :: ls')) = l :: l2 :: ls'
      rw [show joinNL (l :: l2 :: ls') = l ++ '\n' :: joinNL (l2 :: ls') from rfl]
      rw [splitlinesAux_join l [] (joinNL (l2 :: ls')) hbf]
      rw [List.reverse_nil, List.nil_append]
      exact congrArg (List.cons l) ihh

theorem dropWhile_head_false (p : Char → Bool) (l : List Char) :
    ∀ c, (l.dropWhile p).head? = some c → p c = false := by
  induction l with
  | nil => intro c h; cases h
  | cons a t ih =>
    intro c h
    rw [List.dropWhile_cons] at h
    by_cases hp : p a
    · rw [if_pos hp] at h
      exact ih c h
    · rw [if_neg hp] at h
      injection h with h2
      subst h2
      exact Bool.eq_false_iff.mpr hp

theorem dropWhile_eq_self (p : Char → Bool) (l : List Char)
    (h : ∀ c, l.head? = some c → p c = false) : l.dropWhile p = l := by
  cases l with
  | nil => rfl
  | cons a t =>
    rw [List.dropWhile_cons, if_neg (by simp [h a rfl])]

theorem getLast?_dropWhile (p : Char → Bool) (l : List Char) :
    l.dropWhile p ≠ [] → (l.dropWhile p).getLast? = l.getLast? := by
  induction l with
  | nil => intro h; exact absurd rfl h
  | cons a t ih =>
    intro h
    rw [List.dropWhile_cons] at h ⊢
    by_cases hp : p a
    · rw [if_pos hp] at h ⊢
      have ht : t ≠ [] := by
        intro he
        subst he
        exact h rfl
      rw [ih h]
      cases t with
      | nil => exact absurd rfl ht
      | cons b t' => rw [List.getLast?_cons_cons]
    · rw [if_neg hp]

theorem mem_pyStrip (l : List Char) (c : Char) (h : c ∈ pyStrip l) : c ∈ l := by
  unfold pyStrip at h
  rw [List.mem_reverse] at h
  have h1 : c ∈ (l.dropWhile pyIsSpace).reverse :=
    (List.dropWhile_sublist pyIsSpace).mem h
  rw [List.mem_reverse] at h1
  exact (List.dropWhile_sublist pyIsSpace).mem h1

theorem pyStrip_getLast? (l : List Char) :
    ∀ c, (pyStrip l).getLast? = some c → pyIsSpace c = false := by
  intro c h
  unfold pyStrip at h
  rw [List.getLast?_reverse] at h
  exact dropWhile_head_false pyIsSpace _ c h

theorem pyStrip_head? (l : List Char) :
    ∀ c, (pyStrip l).head? = some c → pyIsSpace c = false := by
  intro c h
  unfold pyStrip at h
  rw [List.head?_reverse] at h
  by_cases hne : (l.dropWhile pyIsSpace).reverse.dropWhile pyIsSpace = []
  · rw [hne] at h
    cases h
  · rw [getLast?_dropWhile pyIsSpace _ hne, List.getLast?_reverse] at h
    exact dropWhile_head_false pyIsSpace l c h

theorem pyStrip_fixpoint (m : List Char)
    (h1 : ∀ c, m.head? = some c → pyIsSpace c = false)
    (h2 : ∀ c, m.getLast? = some c → pyIsSpace c = false) : pyStrip m = m := by
  unfold pyStrip
  rw [dropWhile_eq_self pyIsSpace m h1]
  rw [dropWhile_eq_self pyIsSpace m.reverse
    (fun c hc => h2 c (by rw [← List.head?_reverse]; exact hc))]
  exact List.reverse_reverse m

theorem pyStrip_idem (l : List Char) : pyStrip (pyStrip l) = pyStrip l :=
  pyStrip_fixpoint (pyStrip l) (pyStrip_head? l) (pyStrip_getLast? l)

theorem keptLines_spec (t : List Char) :
    ∀ l ∈ keptLines t, l ≠ [] ∧ l.head? ≠ some '#' ∧ pyStrip l = l ∧
      ∀ c ∈ l, pyIsLineBreak c = false := by
  intro l hl
  unfold keptLines at hl
  rw [List.mem_filter] at hl
  obtain ⟨hmap, hpred⟩ := hl
  rw [List.mem_map] at hmap
  obtain ⟨l0, hl0, rfl⟩ := hmap
  have hbf : ∀ c ∈ pyStrip l0, pyIsLineBreak c = false := fun c hc =>
    splitlinesAux_breakfree t false [] (by intro x hx; cases hx) l0 hl0 c
      (mem_pyStrip l0 c hc)
  simp only [Bool.not_eq_true', Bool.or_eq_false_iff] at hpred
  obtain ⟨hemp, hhash⟩ := hpred
  refine ⟨?_, ?_, pyStrip_idem l0, hbf⟩
  · intro he
    rw [he] at hemp
    cases hemp
  · intro hh
    rw [hh] at hhash
    simp at hhash

theorem splitlines_normalize_export (t : List Char) :
    splitlines (normalize_export t) = keptLines t := by
  unfold normalize_export
  apply splitlines_joinNL
  intro l hl
  obtain ⟨hne, _, _, hbf⟩ := keptLines_spec t l hl
  exact ⟨hne, hbf⟩

theorem keptLines_normalize_export (t : List Char) :
    keptLines (normalize_export t) = keptLines t := by
  show ((splitlines (normalize_export t)).map pyStrip).filter _ = keptLines t
  rw [splitlines_normalize_export t]
  have hmap : (keptLines t).map pyStrip = keptLines t := by
    have hfix : ∀ l ∈ keptLines t, pyStrip l = l := fun l hl =>
      (keptLines_spec t l hl).2.2.1
    calc (keptLines t).map pyStrip = (keptLines t).map id := List.map_congr_left hfix
    _ = keptLines t := List.map_id _
  rw [hmap]
  apply List.filter_eq_self.mpr
  intro l hl
  obtain ⟨hne, hhd, _, _⟩ := keptLines_spec t l hl
  simp [hne, hhd]

/-- **C10**: `normalize_export` is idempotent, and every line of its output is
non-blank, does not start with `#`, and carries no leading or trailing
whitespace. -/
theorem normalize_export_spec (t : List Char) :
    normalize_export (normalize_export t) = normalize_export t ∧
    ∀ l ∈ splitlines (normalize_export t),
      l ≠ [] ∧ l.head? ≠ some '#' ∧
      (∀ c, l.head? = some c → pyIsSpace c = false) ∧
      (∀ c, l.getLast? = some c → pyIsSpace c = false) := by
  constructor
  · show joinNL (keptLines (normalize_export t)) = normalize_export t
    rw [keptLines_normalize_export t]
    rfl
  · intro l hl
    rw [splitlines_normalize_export t] at hl
    obtain ⟨hne, hhd, hfix, _⟩ := keptLines_spec t l hl
    refine ⟨hne, hhd, ?_, ?_⟩
    · intro c hc
      exact pyStrip_head? l c (by rw [hfix]; exact hc)
    · intro c hc
      exact pyStrip_getLast? l c (by rw [hfix]; exact hc)

/-- **C10 witness**: a concrete export with a comment line, surrounding blank
lines and padded content normalizes to clean lines, and the output-line
properties hold on its first line. -/
theorem normalize_export_spec_witness :
    normalize_export (normalize_export ("# mock export\n  /interface print \n\n".toList)) =
      normalize_export ("# mock export\n  /interface print \n\n".toList) ∧
    ("/interface print".toList ≠ [] ∧
      ("/interface print".toList).head? ≠ some '#' ∧
      (∀ c, ("/interface print".toList).head? = some c → pyIsSpace c = false) ∧
      (∀ c, ("/interface print".toList).getLast? = some c → pyIsSpace c = false)) :=
  ⟨(normalize_export_spec ("# mock export\n  /interface print \n\n".toList)).1,
   (normalize_export_spec ("# mock export\n  /interface print \n\n".toList)).2
     ("/interface print".toList) (by decide)⟩

end RouterVault
